import Mathlib

/-!
Verification of the particle subsystem of the koridor landing page
(src/assets/js/particles.js), shallowly embedded in Lean 4.

Modelling conventions.
* JavaScript numbers are modelled by exact rationals `ℚ`.  The particle
  update (`Particle.update`) performs no division, so over the rationals
  every value stays a finite number; the float-specific concerns of the
  spec (NaN / infinity) can only arise from division or modulo, of which
  the source has none in the physics step.
* `Math.sqrt` is irrational in general, so whenever the source computes
  `dist = Math.sqrt(dx*dx + dy*dy)` the embedding either (a) receives
  `dist` as an explicit argument constrained by `dist ^ 2 = dx ^ 2 + dy ^ 2`
  and `0 ≤ dist` in the theorems, or (b) compares squared distances
  (`distSq < d ^ 2` instead of `sqrt distSq < d`, equivalent for `0 ≤ d`
  because squaring is monotone on nonnegatives), recording the squared
  distance where the source records the distance.
* `Math.cos (Math.atan2 dy dx)` equals `dx / dist` and
  `Math.sin (Math.atan2 dy dx)` equals `dy / dist` for `(dx, dy) ≠ (0,0)`;
  the embedding of `applyMouseForces` uses those closed forms.
* Random draws (`Math.random()`, values in `[0,1)`) are passed in as
  explicit parameters.
* The per-particle trigonometric factors of `createExplosion`
  (`Math.cos angle`, `Math.sin angle` for `angle = 2π i / n`) are passed
  in as an explicit function `trig : ℕ → ℚ × ℚ`; the theorems that need
  them constrain `(trig i).1 ^ 2 + (trig i).2 ^ 2 = 1`.
-/

namespace Koridor

/-- The PARTICLE_CONFIG object of particles.js (lines 10-52), as a record so
that theorems can quantify over the configured constants. -/
structure Config where
  particleCount : ℕ
  connectionDist : ℚ
  sizeMin : ℚ
  sizeMax : ℚ
  gravity : ℚ
  friction : ℚ
  bounce : ℚ
  attractionRadius : ℚ
  repulsionRadius : ℚ
  attractionForce : ℚ
  repulsionForce : ℚ
  explosionCount : ℕ
  explosionSpeed : ℚ
  explosionLifetime : ℚ
deriving DecidableEq

/-- The concrete values of PARTICLE_CONFIG in the source. -/
def defaultConfig : Config where
  particleCount := 50
  connectionDist := 150
  sizeMin := 1
  sizeMax := 4
  gravity := 1/20
  friction := 99/100
  bounce := 4/5
  attractionRadius := 100
  repulsionRadius := 50
  attractionForce := 1/50
  repulsionForce := 1/10
  explosionCount := 20
  explosionSpeed := 5
  explosionLifetime := 1000

/-- The state of a `Particle` (particles.js lines 57-70).  The `color`
field and the per-frame `connections` array are omitted: the colour never
influences the dynamics, and connections are recomputed from scratch every
frame, so the embedding keeps them outside the particle
(see `connectionsOf`). -/
structure Particle where
  x : ℚ
  y : ℚ
  vx : ℚ
  vy : ℚ
  size : ℚ
  alpha : ℚ
  life : ℚ
  decay : ℚ
deriving DecidableEq

/-- The Particle constructor (lines 58-70).  `rvx rvy rsize rdecay` stand
for the four `Math.random()` draws, each in `[0,1)`. -/
def mkParticle (cfg : Config) (x y rvx rvy rsize rdecay : ℚ) : Particle where
  x := x
  y := y
  vx := (rvx - 1/2) * 2
  vy := (rvy - 1/2) * 2
  size := cfg.sizeMin + rsize * (cfg.sizeMax - cfg.sizeMin)
  alpha := 1
  life := 1
  decay := 1/200 + rdecay * (1/200)

/-- Particle.applyForce (lines 134-137): adds the force to the velocity. -/
def Particle.applyForce (p : Particle) (fx fy : ℚ) : Particle :=
  { p with vx := p.vx + fx, vy := p.vy + fy }

/-- Particle.isDead (lines 143-145). -/
def Particle.isDead (p : Particle) : Bool :=
  decide (p.alpha ≤ 0)

/-- Particle.update (lines 75-100): gravity, friction, position
integration, life decay, opacity clamp, and the boundary bounce against
the viewport `[0, w] × [0, h]` (the source reads `window.innerWidth` and
`window.innerHeight`; they are the `w h` parameters here). -/
def Particle.update (cfg : Config) (w h : ℚ) (p : Particle) : Particle :=
  let vy1 := p.vy + cfg.gravity
  let vx1 := p.vx * cfg.friction
  let vy2 := vy1 * cfg.friction
  let x1 := p.x + vx1
  let y1 := p.y + vy2
  let life1 := p.life - p.decay
  let alpha1 := max 0 life1
  let vx2 := if x1 < 0 ∨ x1 > w then vx1 * (-cfg.bounce) else vx1
  let x2 := if x1 < 0 ∨ x1 > w then max 0 (min w x1) else x1
  let vy3 := if y1 < 0 ∨ y1 > h then vy2 * (-cfg.bounce) else vy2
  let y2 := if y1 < 0 ∨ y1 > h then max 0 (min h y1) else y1
  { p with x := x2, y := y2, vx := vx2, vy := vy3,
           life := life1, alpha := alpha1 }

/-- The body of the `forEach` in ParticleSystem.applyMouseForces
(lines 253-275), for one particle.  `dist` stands for the source's
`Math.sqrt(dx*dx + dy*dy)`; `Math.cos (Math.atan2 dy dx) = dx / dist` and
`Math.sin (Math.atan2 dy dx) = dy / dist`. -/
def applyMouseForce (cfg : Config) (mx my dist : ℚ) (p : Particle) : Particle :=
  let dx := mx - p.x
  let dy := my - p.y
  if dist < cfg.repulsionRadius then
    let force := cfg.repulsionForce * (1 - dist / cfg.repulsionRadius)
    p.applyForce (dx / dist * force) (dy / dist * force)
  else if dist < cfg.attractionRadius then
    let force := cfg.attractionForce * (dist / cfg.attractionRadius)
    p.applyForce (dx / dist * force) (dy / dist * force)
  else p

/-- ParticleSystem.applyMouseForces (lines 250-276): a no-op when the
pointer is not over the page, otherwise the per-particle force applied to
every particle.  `sqrtFn` stands for `Math.sqrt`, applied to the squared
distance of each particle to the pointer. -/
def applyMouseForces (cfg : Config) (isOver : Bool) (mx my : ℚ)
    (sqrtFn : ℚ → ℚ) (ps : List Particle) : List Particle :=
  if !isOver then ps
  else ps.map (fun p =>
    applyMouseForce cfg mx my (sqrtFn ((mx - p.x) ^ 2 + (my - p.y) ^ 2)) p)

/-- The particle update-and-cleanup of ParticleSystem.animate
(lines 317-320): `this.particles = this.particles.filter(p => {
p.update(); return !p.isDead(); })`, i.e. one unconditional update of every
particle followed by one filtering pass. -/
def stepField (cfg : Config) (w h : ℚ) (ps : List Particle) : List Particle :=
  (ps.map (Particle.update cfg w h)).filter (fun p => !p.isDead)

/-- One full physics advance of a tick, as animate orders it:
apply the pointer forces (line 314), then update and filter (317-320). -/
def tickField (cfg : Config) (w h : ℚ) (isOver : Bool) (mx my : ℚ)
    (sqrtFn : ℚ → ℚ) (ps : List Particle) : List Particle :=
  stepField cfg w h (applyMouseForces cfg isOver mx my sqrtFn ps)

/-- Squared Euclidean distance between two particles; the source computes
`Math.sqrt` of this value (lines 292-294). -/
def distSq (p q : Particle) : ℚ :=
  (p.x - q.x) ^ 2 + (p.y - q.y) ^ 2

/-- The connection list that ParticleSystem.updateConnections
(lines 281-304) leaves on particle `i`: the double loop over `i < j`
pushes `{particle: p2, distance}` onto `p1.connections` only.  The
embedding records particles by index and the squared distance in place of
the distance (`distSq < connectionDist ^ 2` iff `sqrt distSq <
connectionDist` for the nonnegative threshold, and the recorded squared
values agree exactly when the recorded distances do). -/
def connectionsOf (cfg : Config) (ps : List Particle) (i : ℕ) : List (ℕ × ℚ) :=
  (List.range ps.length).filterMap (fun j =>
    match ps[i]?, ps[j]? with
    | some p, some q =>
        if i < j ∧ distSq p q < cfg.connectionDist ^ 2 then
          some (j, distSq p q)
        else none
    | _, _ => none)

/-- The i-th explosion particle made by ParticleSystem.createExplosion
(lines 219-227): constructed at `(x, y)`, then its velocity, life and
decay overwritten.  `cosA sinA` stand for `Math.cos angle` and
`Math.sin angle` with `angle = 2π i / explosionCount`; `rspd` is the
`Math.random()` draw of the speed factor, and `rvx rvy rsize rdecay` the
draws consumed by the Particle constructor. -/
def mkExplosionParticle (cfg : Config) (x y cosA sinA rspd rvx rvy rsize rdecay : ℚ) :
    Particle :=
  let speed := cfg.explosionSpeed * (1/2 + rspd * (1/2))
  { mkParticle cfg x y rvx rvy rsize rdecay with
      vx := cosA * speed
      vy := sinA * speed
      life := 1
      decay := 1 / cfg.explosionLifetime }

/-- The burst array built by the loop of createExplosion (lines 218-228).
`trig i` stands for `(Math.cos angle, Math.sin angle)` at
`angle = 2π i / explosionCount`, and `rnd i` for the random draws consumed
for the i-th particle (speed factor and the constructor's four draws). -/
def explosionParticles (cfg : Config) (x y : ℚ) (trig : ℕ → ℚ × ℚ)
    (rnd : ℕ → ℚ × ℚ × ℚ × ℚ × ℚ) : List Particle :=
  (List.range cfg.explosionCount).map (fun i =>
    mkExplosionParticle cfg x y (trig i).1 (trig i).2
      (rnd i).1 (rnd i).2.1 (rnd i).2.2.1 (rnd i).2.2.2.1 (rnd i).2.2.2.2)

/-- JavaScript `array.slice(-k)`: the last `k` elements, except that
`slice(-0)` is `slice(0)`, the whole array. -/
def sliceLast (k : ℕ) (l : List Particle) : List Particle :=
  if k = 0 then l else l.drop (l.length - k)

/-- ParticleSystem.createExplosion (lines 217-237): append the burst to
the field, then cut the population back to the last
`particleCount * 2` entries when it exceeds that cap. -/
def createExplosion (cfg : Config) (x y : ℚ) (trig : ℕ → ℚ × ℚ)
    (rnd : ℕ → ℚ × ℚ × ℚ × ℚ × ℚ) (ps : List Particle) : List Particle :=
  let grown := ps ++ explosionParticles cfg x y trig rnd
  if grown.length > cfg.particleCount * 2 then
    sliceLast (cfg.particleCount * 2) grown
  else grown

/-- The fields of a ParticleSystem instance the claims touch: the particle
array and the canvas dimensions (the source keeps the latter on
`this.canvas`). -/
structure SystemState where
  particles : List Particle
  width : ℚ
  height : ℚ
deriving DecidableEq

/-- ParticleSystem.handleResize (lines 242-245): sets the canvas
dimensions to the window dimensions and touches nothing else — the
particle array is left as it is. -/
def handleResize (s : SystemState) (w h : ℚ) : SystemState :=
  { s with width := w, height := h }

/-- The seven top-level sub-steps of ParticleSystem.animate
(lines 309-334), named. -/
inductive Ev where
  | clearSurface
  | pointerForces
  | stepParticles
  | connections
  | drawLines
  | drawDots
  | schedule
deriving DecidableEq

/-- The order in which the statements of animate (lines 309-334) execute
when none of them throws: clearRect (311), applyMouseForces (314), the
update-and-filter pass (317-320), updateConnections (323),
drawConnections (326), the particle draw loop (329-331), and
requestAnimationFrame (333). -/
def animateTrace : List Ev :=
  [Ev.clearSurface, Ev.pointerForces, Ev.stepParticles, Ev.connections,
   Ev.drawLines, Ev.drawDots, Ev.schedule]

/-- Exception semantics of one animate call: the body has no try/catch,
so when statement number `i` (0-based, in `animateTrace` order) throws,
exactly the statements before it have completed and the rest — the
rescheduling included — never run.  `none` is a fault-free tick. -/
def runToFault (steps : List Ev) (fault : Option ℕ) : List Ev :=
  match fault with
  | none => steps
  | some i => steps.take i

/-- A concrete particle at rest at `(x, y)` used for concrete instances:
the constructor's draws taken at `rvx = rvy = 1/2`, `rsize = 0`,
`rdecay = 0`. -/
def probeAt (x y : ℚ) : Particle :=
  mkParticle defaultConfig x y (1/2) (1/2) 0 0

/-- A small configuration (one baseline particle, one burst particle,
burst lifetime 2) for concrete instances; all other constants as in the
source. -/
def tinyConfig : Config :=
  { defaultConfig with particleCount := 1, explosionCount := 1, explosionLifetime := 2 }

/-- ParticleSystem.updateConnections (lines 281-304) as a whole: it
produces the per-particle connection lists and leaves the particle array
itself exactly as it found it (the source only writes the per-particle
`connections` fields, which this embedding keeps alongside the list). -/
def updateConnections (cfg : Config) (ps : List Particle) :
    List Particle × List (List (ℕ × ℚ)) :=
  (ps, (List.range ps.length).map (connectionsOf cfg ps))

/-- The concrete system state used against claim C8: one particle resting
at `(500, 300)` in an `800 × 600` viewport. -/
def wideSys : SystemState :=
  { particles := [probeAt 500 300], width := 800, height := 600 }

section Helpers

/-- One update always lands the x-coordinate inside `[0, w]` (for a
nonnegative viewport width), whatever the starting position. -/
theorem update_x_bounds (cfg : Config) (w h : ℚ) (hw : 0 ≤ w) (p : Particle) :
    0 ≤ (Particle.update cfg w h p).x ∧ (Particle.update cfg w h p).x ≤ w := by
  simp only [Particle.update]
  split_ifs with hc
  · exact ⟨le_max_left 0 _, max_le hw (min_le_left _ _)⟩
  · push_neg at hc
    exact ⟨hc.1, hc.2⟩

/-- One update always lands the y-coordinate inside `[0, h]` (for a
nonnegative viewport height), whatever the starting position. -/
theorem update_y_bounds (cfg : Config) (w h : ℚ) (hh : 0 ≤ h) (p : Particle) :
    0 ≤ (Particle.update cfg w h p).y ∧ (Particle.update cfg w h p).y ≤ h := by
  simp only [Particle.update]
  split_ifs with hc
  · exact ⟨le_max_left 0 _, max_le hh (min_le_left _ _)⟩
  · push_neg at hc
    exact ⟨hc.1, hc.2⟩

end Helpers

/-- Claim C1 (code bug, witnessed at a concrete input).  Pointer active at
`(0, 0)`, particle at `(10, 0)`, distance `10` (exactly
`√((0−10)² + (0−0)²)`, as the last two conjuncts certify), which is inside
the repulsion radius `50`.  The claim and the source's own comment
(`Сила отталкивания`, line 259) call for a force directed away from the
pointer — here the positive x-direction — of magnitude
`repulsionForce * (1 − 10/50) = 2/25`.  The code adds
`cos(atan2(dy,dx)) * force = dx/dist * force` with `dx = mouseX − x`
pointing from the particle to the pointer, so the velocity change is
`−2/25`: the right magnitude but aimed at the pointer, an attracting
force.  Position is untouched, as the claim's last part states. -/
theorem repulsion_branch_pushes_toward_pointer :
    (applyMouseForce defaultConfig 0 0 10 (probeAt 10 0)).vx = -(2/25)
    ∧ (applyMouseForce defaultConfig 0 0 10 (probeAt 10 0)).vx < 0
    ∧ (applyMouseForce defaultConfig 0 0 10 (probeAt 10 0)).vy = 0
    ∧ (applyMouseForce defaultConfig 0 0 10 (probeAt 10 0)).x = (probeAt 10 0).x
    ∧ (applyMouseForce defaultConfig 0 0 10 (probeAt 10 0)).y = (probeAt 10 0).y
    ∧ (10:ℚ) ^ 2 = (0 - (probeAt 10 0).x) ^ 2 + (0 - (probeAt 10 0).y) ^ 2
    ∧ (10:ℚ) < defaultConfig.repulsionRadius := by
  norm_num [applyMouseForce, Particle.applyForce, probeAt, mkParticle, defaultConfig]

/-- Claim C2: starting from any in-bounds state (initialization places
particles at `Math.random() * width/height`, inside the viewport), after
any number of update steps the position stays in `[0, w] × [0, h]`, for
any nonnegative viewport dimensions — including the degenerate `w = 0` or
`h = 0` (the update divides by nothing, so over the exact rationals of
this embedding no NaN or infinite value can arise).  On an edge crossing
the velocity component is multiplied by `−bounce` and the position clamped
back inside. -/
theorem update_stays_in_viewport (cfg : Config) (w h : ℚ)
    (hw : 0 ≤ w) (hh : 0 ≤ h) (p : Particle)
    (hx : 0 ≤ p.x ∧ p.x ≤ w) (hy : 0 ≤ p.y ∧ p.y ≤ h) (k : ℕ) :
    (0 ≤ ((Particle.update cfg w h)^[k] p).x
      ∧ ((Particle.update cfg w h)^[k] p).x ≤ w
      ∧ 0 ≤ ((Particle.update cfg w h)^[k] p).y
      ∧ ((Particle.update cfg w h)^[k] p).y ≤ h)
    ∧ (∀ q : Particle, q.x + q.vx * cfg.friction < 0 ∨ q.x + q.vx * cfg.friction > w →
        (Particle.update cfg w h q).vx = q.vx * cfg.friction * (-cfg.bounce)
        ∧ (Particle.update cfg w h q).x = max 0 (min w (q.x + q.vx * cfg.friction)))
    ∧ (∀ q : Particle,
        q.y + (q.vy + cfg.gravity) * cfg.friction < 0
          ∨ q.y + (q.vy + cfg.gravity) * cfg.friction > h →
        (Particle.update cfg w h q).vy = (q.vy + cfg.gravity) * cfg.friction * (-cfg.bounce)
        ∧ (Particle.update cfg w h q).y
            = max 0 (min h (q.y + (q.vy + cfg.gravity) * cfg.friction))) := by
  refine ⟨?_, ?_, ?_⟩
  · induction k with
    | zero => simpa using ⟨hx.1, hx.2, hy.1, hy.2⟩
    | succ n _ =>
        rw [Function.iterate_succ_apply']
        obtain ⟨hx1, hx2⟩ := update_x_bounds cfg w h hw ((Particle.update cfg w h)^[n] p)
        obtain ⟨hy1, hy2⟩ := update_y_bounds cfg w h hh ((Particle.update cfg w h)^[n] p)
        exact ⟨hx1, hx2, hy1, hy2⟩
  · intro q hq
    simp only [Particle.update]
    rw [if_pos hq, if_pos hq]
    exact ⟨rfl, rfl⟩
  · intro q hq
    simp only [Particle.update]
    rw [if_pos hq, if_pos hq]
    exact ⟨rfl, rfl⟩

/-- Concrete instance of `update_stays_in_viewport`: a particle in a
degenerate zero-by-zero viewport, after three steps, is still at the only
in-bounds point. -/
theorem update_stays_in_viewport_check :
    0 ≤ ((Particle.update defaultConfig 0 0)^[3] (probeAt 0 0)).x
    ∧ ((Particle.update defaultConfig 0 0)^[3] (probeAt 0 0)).x ≤ 0
    ∧ 0 ≤ ((Particle.update defaultConfig 0 0)^[3] (probeAt 0 0)).y
    ∧ ((Particle.update defaultConfig 0 0)^[3] (probeAt 0 0)).y ≤ 0 :=
  (update_stays_in_viewport defaultConfig 0 0 le_rfl le_rfl (probeAt 0 0)
    (by norm_num [probeAt, mkParticle]) (by norm_num [probeAt, mkParticle]) 3).1

section ListHelpers

/-- A particle that survived the filtering pass of the update step is not
dead, and its remaining life is strictly positive. -/
theorem mem_stepField_pos_life (cfg : Config) (w h : ℚ) (ps : List Particle)
    (p : Particle) (hp : p ∈ stepField cfg w h ps) :
    p.isDead = false ∧ 0 < p.life := by
  obtain ⟨hmem, hcond⟩ := List.mem_filter.mp hp
  have hdead : p.isDead = false := by simpa using hcond
  refine ⟨hdead, ?_⟩
  obtain ⟨q, _, rfl⟩ := List.mem_map.mp hmem
  have halpha : ¬((Particle.update cfg w h q).alpha ≤ 0) := by
    simpa [Particle.isDead] using hdead
  have h1 : (Particle.update cfg w h q).alpha = max 0 (q.life - q.decay) := by
    simp [Particle.update]
  have h2 : (Particle.update cfg w h q).life = q.life - q.decay := by
    simp [Particle.update]
  rw [h1] at halpha
  rw [h2]
  rcases lt_max_iff.mp (lt_of_not_le halpha) with h | h
  · exact absurd h (lt_irrefl 0)
  · exact h

/-- An updated particle with positive remaining life passes the filter. -/
theorem update_alive_not_dead (cfg : Config) (w h : ℚ) (q : Particle)
    (hl : 0 < (Particle.update cfg w h q).life) :
    (Particle.update cfg w h q).isDead = false := by
  have h1 : (Particle.update cfg w h q).alpha = max 0 (q.life - q.decay) := by
    simp [Particle.update]
  have h2 : (Particle.update cfg w h q).life = q.life - q.decay := by
    simp [Particle.update]
  rw [h2] at hl
  simp [Particle.isDead, h1]
  exact sub_pos.mp hl

/-- The burst array has exactly `explosionCount` entries. -/
theorem explosionParticles_length (cfg : Config) (x y : ℚ) (trig : ℕ → ℚ × ℚ)
    (rnd : ℕ → ℚ × ℚ × ℚ × ℚ × ℚ) :
    (explosionParticles cfg x y trig rnd).length = cfg.explosionCount := by
  simp [explosionParticles]

end ListHelpers

/-- Claim C4: after the update-and-filter pass of a tick no dead particle
(remaining life at or below zero) is in the field; the pass is a single
`filter` over the mapped collection; and a further pass in which no
particle's life drops to or below zero removes nothing. -/
theorem stepField_cleanup (cfg : Config) (w h : ℚ) (ps : List Particle) :
    (∀ p ∈ stepField cfg w h ps, p.isDead = false ∧ 0 < p.life)
    ∧ stepField cfg w h ps
        = (ps.map (Particle.update cfg w h)).filter (fun p => !p.isDead)
    ∧ ((∀ p ∈ ps, 0 < (Particle.update cfg w h p).life) →
        stepField cfg w h ps = ps.map (Particle.update cfg w h)) := by
  refine ⟨fun p hp => mem_stepField_pos_life cfg w h ps p hp, rfl, fun hall => ?_⟩
  rw [stepField]
  apply List.filter_eq_self.mpr
  intro p hp
  obtain ⟨q, hq, rfl⟩ := List.mem_map.mp hp
  simpa using update_alive_not_dead cfg w h q (hall q hq)

/-- Concrete instance of `stepField_cleanup`: with one live particle whose
updated life stays positive, the pass removes nothing. -/
theorem stepField_cleanup_check :
    stepField defaultConfig 100 100 [probeAt 5 5]
      = [probeAt 5 5].map (Particle.update defaultConfig 100 100) :=
  (stepField_cleanup defaultConfig 100 100 [probeAt 5 5]).2.2 (by
    intro p hp
    rw [List.mem_singleton.mp hp]
    norm_num [Particle.update, probeAt, mkParticle, defaultConfig])

/-- Claim C3: an explosion appends its burst to the field; when the grown
population stays at or below the cap (`particleCount * 2`) the count grows
by exactly the burst size, otherwise exactly the oldest
`current + n − cap` particles are dropped from the front and the final
count is `min (current + n) cap`.  (The `0 < particleCount` hypothesis
keeps JavaScript's `slice(-0) = slice(0)` edge out of reach; the source
cap is `50 * 2`.) -/
theorem createExplosion_cap (cfg : Config) (hcap : 0 < cfg.particleCount)
    (x y : ℚ) (trig : ℕ → ℚ × ℚ) (rnd : ℕ → ℚ × ℚ × ℚ × ℚ × ℚ)
    (ps : List Particle) :
    (ps.length + cfg.explosionCount ≤ cfg.particleCount * 2 →
      createExplosion cfg x y trig rnd ps = ps ++ explosionParticles cfg x y trig rnd
      ∧ (createExplosion cfg x y trig rnd ps).length
          = ps.length + cfg.explosionCount)
    ∧ (cfg.particleCount * 2 < ps.length + cfg.explosionCount →
      createExplosion cfg x y trig rnd ps
        = (ps ++ explosionParticles cfg x y trig rnd).drop
            (ps.length + cfg.explosionCount - cfg.particleCount * 2)
      ∧ (createExplosion cfg x y trig rnd ps).length
          = min (ps.length + cfg.explosionCount) (cfg.particleCount * 2)) := by
  have hlen : (ps ++ explosionParticles cfg x y trig rnd).length
      = ps.length + cfg.explosionCount := by
    simp [explosionParticles_length]
  constructor
  · intro hle
    have hcond : ¬((ps ++ explosionParticles cfg x y trig rnd).length
        > cfg.particleCount * 2) := by omega
    have hout : createExplosion cfg x y trig rnd ps
        = ps ++ explosionParticles cfg x y trig rnd := by
      rw [createExplosion, if_neg hcond]
    exact ⟨hout, by rw [hout, hlen]⟩
  · intro hgt
    have hcond : (ps ++ explosionParticles cfg x y trig rnd).length
        > cfg.particleCount * 2 := by omega
    have hout : createExplosion cfg x y trig rnd ps
        = (ps ++ explosionParticles cfg x y trig rnd).drop
            (ps.length + cfg.explosionCount - cfg.particleCount * 2) := by
      rw [createExplosion, if_pos hcond, sliceLast,
          if_neg (by omega : ¬(cfg.particleCount * 2 = 0)), hlen]
    refine ⟨hout, ?_⟩
    rw [hout, List.length_drop, hlen]
    omega

/-- Concrete instance of `createExplosion_cap`: with the small
configuration (cap 2, burst 1) a field of two particles overflows and the
oldest one is dropped from the front; a field of one particle just gains
the burst. -/
theorem createExplosion_cap_check :
    createExplosion tinyConfig 4 5 (fun _ => (1, 0)) (fun _ => (0, 0, 0, 0, 0))
        [probeAt 0 0, probeAt 1 0]
      = ([probeAt 0 0, probeAt 1 0]
          ++ explosionParticles tinyConfig 4 5 (fun _ => (1, 0))
              (fun _ => (0, 0, 0, 0, 0))).drop 1
    ∧ createExplosion tinyConfig 4 5 (fun _ => (1, 0)) (fun _ => (0, 0, 0, 0, 0))
        [probeAt 7 7]
      = [probeAt 7 7]
          ++ explosionParticles tinyConfig 4 5 (fun _ => (1, 0))
              (fun _ => (0, 0, 0, 0, 0)) :=
  ⟨((createExplosion_cap tinyConfig (by simp [tinyConfig]) 4 5 (fun _ => (1, 0))
      (fun _ => (0, 0, 0, 0, 0)) [probeAt 0 0, probeAt 1 0]).2
      (by simp [tinyConfig, defaultConfig])).1,
   ((createExplosion_cap tinyConfig (by simp [tinyConfig]) 4 5 (fun _ => (1, 0))
      (fun _ => (0, 0, 0, 0, 0)) [probeAt 7 7]).1
      (by simp [tinyConfig, defaultConfig])).1⟩

/-- Claim C5 counterexample.  Two particles `10` apart (squared distance
`100`, well under the threshold `150`): the double loop of
updateConnections records the edge on particle `0` — with the squared
recorded distance `100`, i.e. recorded distance `10` — but the connection
list of particle `1` stays empty, so "if A is connected to B then B is
connected to A with the identical recorded distance in both directions"
fails on the stored lists. -/
theorem connections_stored_one_sided :
    (1, (100:ℚ)) ∈ connectionsOf defaultConfig [probeAt 0 0, probeAt 10 0] 0
    ∧ connectionsOf defaultConfig [probeAt 0 0, probeAt 10 0] 1 = [] := by
  constructor
  · norm_num [connectionsOf, distSq, defaultConfig, probeAt, mkParticle,
      List.range_succ]
  · norm_num [connectionsOf, distSq, defaultConfig, probeAt, mkParticle,
      List.range_succ]

/-- Claim C5, amended: for every pair `i < j` of live particles the edge
is discovered exactly once — it is recorded on the lower-index particle
`i` (present there exactly when the squared distance is below the squared
threshold) and never on the higher-index particle `j` — and the underlying
distance computation is symmetric in the pair.  The stored connection
lists themselves are one-sided, not symmetric. -/
theorem connections_once_per_pair (cfg : Config) (ps : List Particle) (i j : ℕ)
    (hi : i < ps.length) (hj : j < ps.length) (hij : i < j) :
    ((j, distSq ps[i] ps[j]) ∈ connectionsOf cfg ps i
        ↔ distSq ps[i] ps[j] < cfg.connectionDist ^ 2)
    ∧ (∀ q : ℚ, (i, q) ∉ connectionsOf cfg ps j)
    ∧ distSq ps[i] ps[j] = distSq ps[j] ps[i] := by
  have hgi : ps[i]? = some ps[i] := List.getElem?_eq_getElem hi
  have hgj : ps[j]? = some ps[j] := List.getElem?_eq_getElem hj
  refine ⟨⟨?_, ?_⟩, ?_, ?_⟩
  · intro hmem
    obtain ⟨a, ha, hfa⟩ := List.mem_filterMap.mp hmem
    split at hfa
    next p q hp hq =>
      split at hfa
      next hc =>
        obtain ⟨h1, h2⟩ := Prod.mk.injEq _ _ _ _ |>.mp (Option.some_inj.mp hfa)
        subst h1
        rw [hgi] at hp
        rw [hgj] at hq
        cases hp
        cases hq
        exact h2 ▸ hc.2
      next => exact absurd hfa (by simp)
    next => exact absurd hfa (by simp)
  · intro hlt
    apply List.mem_filterMap.mpr
    refine ⟨j, List.mem_range.mpr hj, ?_⟩
    beta_reduce
    rw [hgi, hgj]
    simp only [if_pos (And.intro hij hlt)]
  · intro q hq
    obtain ⟨a, ha, hfa⟩ := List.mem_filterMap.mp hq
    split at hfa
    next p r hp hr =>
      split at hfa
      next hc =>
        obtain ⟨h1, _⟩ := Prod.mk.injEq _ _ _ _ |>.mp (Option.some_inj.mp hfa)
        omega
      next => exact absurd hfa (by simp)
    next => exact absurd hfa (by simp)
  · simp only [distSq]
    ring

/-- Concrete instance of `connections_once_per_pair`: the close pair of
`connections_stored_one_sided`, seen from the lower index. -/
theorem connections_once_per_pair_check :
    (1, distSq (([probeAt 0 0, probeAt 10 0])[0]) (([probeAt 0 0, probeAt 10 0])[1]))
      ∈ connectionsOf defaultConfig [probeAt 0 0, probeAt 10 0] 0 :=
  ((connections_once_per_pair defaultConfig [probeAt 0 0, probeAt 10 0] 0 1
      (by simp) (by simp) (by simp)).1).mpr
    (by norm_num [distSq, defaultConfig, probeAt, mkParticle])

/-- Claim C6 counterexample: the tick does not run in the claimed order —
animate clears the drawing surface as its first statement (line 311), not
as the fourth sub-step after forces, field step and connections. -/
theorem animate_not_claimed_order :
    animateTrace ≠
      [Ev.pointerForces, Ev.stepParticles, Ev.connections, Ev.clearSurface,
       Ev.drawLines, Ev.drawDots, Ev.schedule] := by
  decide

/-- Claim C6, amended: every tick performs clear first, then pointer
forces, field step, connection recomputation, connection lines, particle
draw, and reschedules itself last. -/
theorem animate_substep_order :
    animateTrace =
      [Ev.clearSurface, Ev.pointerForces, Ev.stepParticles, Ev.connections,
       Ev.drawLines, Ev.drawDots, Ev.schedule] :=
  rfl

/-- Claim C8 counterexample: after resizing to `100 × 100`, the particle
that was at `x = 500` is still at `x = 500`, outside the new bounds
`[0, 100]` — handleResize clamps nothing. -/
theorem handleResize_does_not_clamp :
    (handleResize wideSys 100 100).particles = [probeAt 500 300]
    ∧ (probeAt 500 300).x = 500
    ∧ (handleResize wideSys 100 100).width = 100
    ∧ ¬((500:ℚ) ≤ 100) := by
  refine ⟨rfl, by norm_num [probeAt, mkParticle], rfl, by norm_num⟩

/-- Claim C8, amended: handleResize only records the new viewport
dimensions; every particle keeps its exact position (in particular the
in-bounds ones are untouched), and out-of-bounds positions are only pulled
back by the clamp of the next per-particle update. -/
theorem handleResize_keeps_particles (s : SystemState) (w h : ℚ) :
    (handleResize s w h).particles = s.particles
    ∧ (handleResize s w h).width = w
    ∧ (handleResize s w h).height = h :=
  ⟨rfl, rfl, rfl⟩

/-- Claim C9 counterexample: a fault in the third statement of a tick (the
field update) reaches no catch — animate has none — so the
requestAnimationFrame call at the end of the body never runs and no
further frame is scheduled. -/
theorem fault_mid_tick_stops_loop :
    Ev.schedule ∉ runToFault animateTrace (some 2) := by
  decide

/-- Claim C9, amended: the tick body has no exception handling at all: a
fault at any of its seven statements skips the trailing
requestAnimationFrame, so the first failing tick — not a repeated-failure
cutoff — already stops the loop; only a fault-free tick reschedules. -/
theorem fault_aborts_reschedule :
    (∀ i : ℕ, i ≤ 6 → Ev.schedule ∉ runToFault animateTrace (some i))
    ∧ Ev.schedule ∈ runToFault animateTrace none := by
  constructor
  · intro i hi
    interval_cases i <;> decide
  · decide

/-- Concrete instance of `fault_aborts_reschedule`: a fault while drawing
the connection lines (statement 4) stops the loop. -/
theorem fault_aborts_reschedule_check :
    Ev.schedule ∉ runToFault animateTrace (some 4) :=
  (fault_aborts_reschedule).1 4 (by norm_num)

section LifeHelpers

/-- The pointer force touches only the velocity: position, life and decay
pass through unchanged. -/
theorem applyMouseForce_keeps (cfg : Config) (mx my d : ℚ) (p : Particle) :
    (applyMouseForce cfg mx my d p).x = p.x
    ∧ (applyMouseForce cfg mx my d p).y = p.y
    ∧ (applyMouseForce cfg mx my d p).life = p.life
    ∧ (applyMouseForce cfg mx my d p).decay = p.decay := by
  simp only [applyMouseForce, Particle.applyForce]
  split_ifs <;> simp

/-- One update subtracts exactly the decay rate from the remaining life
and keeps the decay rate itself. -/
theorem update_life_decay (cfg : Config) (w h : ℚ) (p : Particle) :
    (Particle.update cfg w h p).life = p.life - p.decay
    ∧ (Particle.update cfg w h p).decay = p.decay := by
  constructor <;> simp [Particle.update]

/-- `k` updates subtract exactly `k` times the decay rate. -/
theorem update_iter_life (cfg : Config) (w h : ℚ) (p : Particle) (k : ℕ) :
    ((Particle.update cfg w h)^[k] p).life = p.life - k * p.decay
    ∧ ((Particle.update cfg w h)^[k] p).decay = p.decay := by
  induction k with
  | zero => simp
  | succ n ih =>
      rw [Function.iterate_succ_apply']
      obtain ⟨ihl, ihd⟩ := ih
      obtain ⟨hl, hd⟩ :=
        update_life_decay cfg w h ((Particle.update cfg w h)^[n] p)
      rw [hl, hd, ihl, ihd]
      push_cast
      constructor
      · ring
      · rfl

/-- A particle of the pointer-force pass descends from a particle of the
input list with the same life and decay. -/
theorem mem_applyMouseForces (cfg : Config) (isOver : Bool) (mx my : ℚ)
    (sqrtFn : ℚ → ℚ) (ps : List Particle) (p : Particle)
    (hp : p ∈ applyMouseForces cfg isOver mx my sqrtFn ps) :
    ∃ q ∈ ps, p.life = q.life ∧ p.decay = q.decay := by
  cases isOver with
  | false => exact ⟨p, by simpa [applyMouseForces] using hp, rfl, rfl⟩
  | true =>
      simp only [applyMouseForces, Bool.not_true] at hp
      obtain ⟨q, hq, rfl⟩ := List.mem_map.mp (by simpa using hp)
      obtain ⟨_, _, hl, hd⟩ := applyMouseForce_keeps cfg mx my
        (sqrtFn ((mx - q.x) ^ 2 + (my - q.y) ^ 2)) q
      exact ⟨q, hq, hl, hd⟩

/-- A particle alive after `k` full ticks descends from a particle of the
starting field, with exactly `k` decay quanta of life spent. -/
theorem mem_tickField_iter (cfg : Config) (w h : ℚ) (isOver : Bool)
    (mx my : ℚ) (sqrtFn : ℚ → ℚ) (k : ℕ) (ps : List Particle) (p : Particle)
    (hp : p ∈ (tickField cfg w h isOver mx my sqrtFn)^[k] ps) :
    ∃ q ∈ ps, p.life = q.life - k * q.decay ∧ p.decay = q.decay := by
  induction k generalizing p with
  | zero => exact ⟨p, by simpa using hp, by simp, rfl⟩
  | succ n ih =>
      rw [Function.iterate_succ_apply'] at hp
      obtain ⟨hmem, _⟩ := List.mem_filter.mp hp
      obtain ⟨q1, hq1, rfl⟩ := List.mem_map.mp hmem
      obtain ⟨r, hr, hrl, hrd⟩ := mem_applyMouseForces cfg isOver mx my sqrtFn _ q1 hq1
      obtain ⟨s, hs, hsl, hsd⟩ := ih r hr
      obtain ⟨hul, hud⟩ := update_life_decay cfg w h q1
      refine ⟨s, hs, ?_, by rw [hud, hrd, hsd]⟩
      rw [hul, hrl, hrd, hsl, hsd]
      push_cast
      ring

/-- When every particle of the field has at most one unit of life and at
least `1/L` of decay per tick, `L` ticks empty the field. -/
theorem tickField_iter_clears (cfg : Config) (w h : ℚ) (isOver : Bool)
    (mx my : ℚ) (sqrtFn : ℚ → ℚ) (L : ℕ) (hL : 0 < L) (ps : List Particle)
    (hall : ∀ q ∈ ps, q.life ≤ 1 ∧ 1 / (L:ℚ) ≤ q.decay) :
    (tickField cfg w h isOver mx my sqrtFn)^[L] ps = [] := by
  rw [List.eq_nil_iff_forall_not_mem]
  intro p hp
  obtain ⟨n, rfl⟩ : ∃ n, L = n + 1 := ⟨L - 1, by omega⟩
  have hpos : 0 < p.life := by
    rw [Function.iterate_succ_apply'] at hp
    exact (mem_stepField_pos_life cfg w h _ p hp).2
  obtain ⟨q, hq, hlife, _⟩ :=
    mem_tickField_iter cfg w h isOver mx my sqrtFn (n + 1) ps p hp
  obtain ⟨hq1, hq2⟩ := hall q hq
  have hLpos : (0:ℚ) < ((n:ℚ) + 1) := by positivity
  have hcast : ((n + 1 : ℕ) : ℚ) = (n:ℚ) + 1 := by push_cast; ring
  have hmul : ((n:ℚ) + 1) * (1 / ((n:ℚ) + 1)) ≤ ((n:ℚ) + 1) * q.decay := by
    apply mul_le_mul_of_nonneg_left _ (le_of_lt hLpos)
    calc (1 / ((n:ℚ) + 1)) = 1 / ((n + 1 : ℕ) : ℚ) := by rw [hcast]
    _ ≤ q.decay := hq2
  rw [mul_one_div, div_self (ne_of_gt hLpos)] at hmul
  rw [hlife, hcast] at hpos
  linarith

/-- Every burst particle carries a full unit of life and the
`1/lifetime` decay rate. -/
theorem mem_explosionParticles_life (cfg : Config) (x y : ℚ)
    (trig : ℕ → ℚ × ℚ) (rnd : ℕ → ℚ × ℚ × ℚ × ℚ × ℚ) (p : Particle)
    (hp : p ∈ explosionParticles cfg x y trig rnd) :
    p.life = 1 ∧ p.decay = 1 / cfg.explosionLifetime := by
  simp only [explosionParticles] at hp
  obtain ⟨i, _, rfl⟩ := List.mem_map.mp hp
  constructor <;> simp [mkExplosionParticle]

/-- The field after an explosion is drawn from the old field plus the
burst (the cap only drops entries). -/
theorem createExplosion_subset (cfg : Config) (x y : ℚ) (trig : ℕ → ℚ × ℚ)
    (rnd : ℕ → ℚ × ℚ × ℚ × ℚ × ℚ) (ps : List Particle) (p : Particle)
    (hp : p ∈ createExplosion cfg x y trig rnd ps) :
    p ∈ ps ++ explosionParticles cfg x y trig rnd := by
  simp only [createExplosion] at hp
  split at hp
  · simp only [sliceLast] at hp
    split at hp
    · exact hp
    · exact List.drop_subset _ _ hp
  · exact hp

/-- The i-th entry of the burst array. -/
theorem explosionParticles_get (cfg : Config) (x y : ℚ) (trig : ℕ → ℚ × ℚ)
    (rnd : ℕ → ℚ × ℚ × ℚ × ℚ × ℚ) (i : ℕ)
    (hi : i < (explosionParticles cfg x y trig rnd).length) :
    (explosionParticles cfg x y trig rnd).get ⟨i, hi⟩
      = mkExplosionParticle cfg x y (trig i).1 (trig i).2 (rnd i).1
          (rnd i).2.1 (rnd i).2.2.1 (rnd i).2.2.2.1 (rnd i).2.2.2.2 := by
  simp [explosionParticles]

end LifeHelpers

/-- Claim C7: createExplosion builds exactly `explosionCount` burst
particles at `(x, y)`; the i-th one carries the velocity
`(cos, sin)` of angle `2π·i/explosionCount` — passed in as `trig i` —
scaled by `explosionSpeed * (1/2 + r/2)` for the random draw `r ∈ [0,1)`
(so the magnitude is the speed times a factor in `[1/2, 1]`), a full unit
of remaining life and decay rate `1/explosionLifetime`; and with the
lifetime equal to a positive whole number `L` of ticks, after `L` ticks
the burst particle's life has reached `0` and the field — provided the
pre-existing particles also hold at most one unit of life and at least
`1/L` decay, as every constructor-made particle does for `L ≤ 200` —
contains no particle at all: every burst particle has been removed. -/
theorem createExplosion_burst (cfg : Config) (L : ℕ) (hL : 0 < L)
    (hlife : cfg.explosionLifetime = (L : ℚ))
    (x y : ℚ) (trig : ℕ → ℚ × ℚ) (rnd : ℕ → ℚ × ℚ × ℚ × ℚ × ℚ) :
    (explosionParticles cfg x y trig rnd).length = cfg.explosionCount
    ∧ (∀ i, ∀ hi : i < (explosionParticles cfg x y trig rnd).length,
        ((explosionParticles cfg x y trig rnd).get ⟨i, hi⟩).x = x
        ∧ ((explosionParticles cfg x y trig rnd).get ⟨i, hi⟩).y = y
        ∧ ((explosionParticles cfg x y trig rnd).get ⟨i, hi⟩).life = 1
        ∧ ((explosionParticles cfg x y trig rnd).get ⟨i, hi⟩).decay
            = 1 / cfg.explosionLifetime
        ∧ ((explosionParticles cfg x y trig rnd).get ⟨i, hi⟩).vx
            = (trig i).1 * (cfg.explosionSpeed * (1/2 + (rnd i).1 * (1/2)))
        ∧ ((explosionParticles cfg x y trig rnd).get ⟨i, hi⟩).vy
            = (trig i).2 * (cfg.explosionSpeed * (1/2 + (rnd i).1 * (1/2)))
        ∧ ((trig i).1 ^ 2 + (trig i).2 ^ 2 = 1 →
            ((explosionParticles cfg x y trig rnd).get ⟨i, hi⟩).vx ^ 2
              + ((explosionParticles cfg x y trig rnd).get ⟨i, hi⟩).vy ^ 2
              = (cfg.explosionSpeed * (1/2 + (rnd i).1 * (1/2))) ^ 2)
        ∧ (0 ≤ (rnd i).1 → (rnd i).1 < 1 → 0 ≤ cfg.explosionSpeed →
            cfg.explosionSpeed / 2
                ≤ cfg.explosionSpeed * (1/2 + (rnd i).1 * (1/2))
            ∧ cfg.explosionSpeed * (1/2 + (rnd i).1 * (1/2))
                ≤ cfg.explosionSpeed)
        ∧ (∀ w h : ℚ,
            ((Particle.update cfg w h)^[L]
              ((explosionParticles cfg x y trig rnd).get ⟨i, hi⟩)).life = 0))
    ∧ (∀ (w h mx my : ℚ) (isOver : Bool) (sqrtFn : ℚ → ℚ) (ps : List Particle),
        (∀ q ∈ ps, q.life ≤ 1 ∧ 1 / (L:ℚ) ≤ q.decay) →
        (tickField cfg w h isOver mx my sqrtFn)^[L]
            (createExplosion cfg x y trig rnd ps) = []) := by
  have hLQ : ((L:ℚ)) ≠ 0 := Nat.cast_ne_zero.mpr (Nat.pos_iff_ne_zero.mp hL)
  refine ⟨explosionParticles_length cfg x y trig rnd, fun i hi => ?_, ?_⟩
  · rw [explosionParticles_get cfg x y trig rnd i hi]
    refine ⟨by simp [mkExplosionParticle, mkParticle],
      by simp [mkExplosionParticle, mkParticle],
      by simp [mkExplosionParticle], by simp [mkExplosionParticle],
      by simp [mkExplosionParticle], by simp [mkExplosionParticle],
      fun htrig => ?_, fun hr0 hr1 hs => ⟨?_, ?_⟩, fun w h => ?_⟩
    · have : ∀ c s m : ℚ, (c * m) ^ 2 + (s * m) ^ 2 = (c ^ 2 + s ^ 2) * m ^ 2 :=
        fun c s m => by ring
      simp only [mkExplosionParticle]
      rw [this, htrig, one_mul]
    · nlinarith
    · nlinarith
    · obtain ⟨hl, _⟩ := update_iter_life cfg w h
        (mkExplosionParticle cfg x y (trig i).1 (trig i).2 (rnd i).1
          (rnd i).2.1 (rnd i).2.2.1 (rnd i).2.2.2.1 (rnd i).2.2.2.2) L
      rw [hl]
      simp only [mkExplosionParticle]
      rw [hlife, mul_one_div, div_self hLQ]
      ring
  · intro w h mx my isOver sqrtFn ps hall
    apply tickField_iter_clears cfg w h isOver mx my sqrtFn L hL
    intro q hq
    rcases List.mem_append.mp
        (createExplosion_subset cfg x y trig rnd ps q hq) with hin | hin
    · exact hall q hin
    · obtain ⟨h1, h2⟩ := mem_explosionParticles_life cfg x y trig rnd q hin
      rw [h1, h2, hlife]
      exact ⟨le_rfl, le_rfl⟩

/-- Concrete instance of `createExplosion_burst`: with the small
configuration (burst of one, lifetime two ticks) an explosion into an
empty field is gone after two ticks. -/
theorem createExplosion_burst_check :
    (tickField tinyConfig 10 10 false 0 0 (fun _ => 0))^[2]
        (createExplosion tinyConfig 4 5 (fun _ => (1, 0))
          (fun _ => (0, 0, 0, 0, 0)) []) = [] :=
  (createExplosion_burst tinyConfig 2 (by norm_num)
      (by norm_num [tinyConfig, defaultConfig]) 4 5 (fun _ => (1, 0))
      (fun _ => (0, 0, 0, 0, 0))).2.2 10 10 0 0 false (fun _ => 0) []
    (by simp)

/-- Claim C10: every operation preserves the insertion order of the
surviving particles.  The update pass is a sublist (an order-preserving
selection) of the one-to-one updated field; an explosion appends at the
back and drops only a front segment; the pointer-force pass is a
positional map (the identity when the pointer is inactive) that never
moves a particle; the connection recomputation hands the particle list
back untouched; and handleResize keeps the particle list exactly.  Hence
the front of the collection always holds the oldest survivors, which is
what makes front-eviction an oldest-first policy. -/
theorem field_order_preserved (cfg : Config) (w h mx my nw nh x y : ℚ)
    (sqrtFn : ℚ → ℚ) (trig : ℕ → ℚ × ℚ) (rnd : ℕ → ℚ × ℚ × ℚ × ℚ × ℚ)
    (ps : List Particle) (s : SystemState) :
    List.Sublist (stepField cfg w h ps) (ps.map (Particle.update cfg w h))
    ∧ (∃ k, createExplosion cfg x y trig rnd ps
          = (ps ++ explosionParticles cfg x y trig rnd).drop k)
    ∧ applyMouseForces cfg true mx my sqrtFn ps
        = ps.map (fun p =>
            applyMouseForce cfg mx my
              (sqrtFn ((mx - p.x) ^ 2 + (my - p.y) ^ 2)) p)
    ∧ applyMouseForces cfg false mx my sqrtFn ps = ps
    ∧ (∀ (d : ℚ) (p : Particle),
        (applyMouseForce cfg mx my d p).x = p.x
        ∧ (applyMouseForce cfg mx my d p).y = p.y)
    ∧ (updateConnections cfg ps).1 = ps
    ∧ (handleResize s nw nh).particles = s.particles := by
  refine ⟨List.filter_sublist _, ?_, rfl, rfl,
    fun d p => ⟨(applyMouseForce_keeps cfg mx my d p).1,
      (applyMouseForce_keeps cfg mx my d p).2.1⟩, rfl, rfl⟩
  by_cases hc : (ps ++ explosionParticles cfg x y trig rnd).length
      > cfg.particleCount * 2
  · by_cases h0 : cfg.particleCount * 2 = 0
    · exact ⟨0, by
        rw [createExplosion, if_pos hc, sliceLast, if_pos h0, List.drop_zero]⟩
    · exact ⟨(ps ++ explosionParticles cfg x y trig rnd).length
          - cfg.particleCount * 2, by
        rw [createExplosion, if_pos hc, sliceLast, if_neg h0]⟩
  · exact ⟨0, by rw [createExplosion, if_neg hc, List.drop_zero]⟩

end Koridor
